import Mathlib

/-!
Shallow embedding of the synthetism/proxy pool manager and source
orchestrator.  Pure functions model the methods of ProxyUnit
(src/proxy.unit.ts, the v1.0.7 class), SockerUnit (socker.unit.ts) and
ProxyMeshSource (sources/proxymesh.source.ts).  Asynchronous completions
(the promise continuations of socker.replenish) are modelled by passing
their outcome as an explicit parameter, and a small labelled transition
system threads pool state plus the queue of outstanding refill tasks.
-/

namespace ProxySpec

/-- ProxyItem from types.ts plus the endpoint fields the pool reads
(formatProxyConnection accesses host, port, username, password, protocol,
country on the items delivered by sources).  Dates become Nat ticks; the
optional TS field used? (undefined is falsy) becomes a Bool. -/
structure ProxyItem where
  id : String
  ttl : Nat
  source : String
  used : Bool
  createdAt : Nat
  host : String
  port : Nat
  username : Option String
  password : Option String
  protocol : String
  country : Option String
deriving Repr, DecidableEq

/-- ProxyConnection from types.ts: the external view handed to callers. -/
structure ProxyConnection where
  id : String
  host : String
  port : Nat
  username : Option String
  password : Option String
  protocol : String
  country : Option String
deriving Repr, DecidableEq

/-- The keys of the poolState State unit as written by ProxyUnit:
proxies, size, lastRefresh, initialized, replenishing (the latter two keys
default to false while unset, matching get(..) || false in the code). -/
structure PoolState where
  proxies : List ProxyItem
  size : Nat
  lastRefresh : Option Nat
  initialized : Bool
  replenishing : Bool
deriving Repr, DecidableEq

/-- Configuration fixed at ProxyUnit.create: poolSize (default 20) and
rotationThreshold (default 0.3), the latter modelled as an exact rational. -/
structure ProxyConfig where
  poolSize : Nat
  rotationThreshold : ℚ
deriving DecidableEq

/-- The two errors thrown on the acquisition hot path. -/
inductive ProxyError where
  | notInitialized
  | poolExhausted
deriving Repr, DecidableEq

/-- The pool state installed by createState at ProxyUnit.create. -/
def initialPoolState : PoolState :=
  { proxies := []
    size := 0
    lastRefresh := none
    initialized := false
    replenishing := false }

/-- proxies.filter(p => !p.used), the available sub-list used throughout. -/
def availableList (s : PoolState) : List ProxyItem :=
  s.proxies.filter (fun p => !p.used)

/-- Number of unused items in the pool. -/
def availCount (s : PoolState) : Nat :=
  (availableList s).length

/-- Number of in-use items in the pool. -/
def usedCount (s : PoolState) : Nat :=
  (s.proxies.filter (fun p => p.used)).length

/-- ProxyUnit.getFromPool: first available item, or null. -/
def getFromPool (s : PoolState) : Option ProxyItem :=
  (availableList s).head?

/-- ProxyUnit.formatProxyConnection. -/
def formatProxyConnection (p : ProxyItem) : ProxyConnection :=
  { id := p.id
    host := p.host
    port := p.port
    username := p.username
    password := p.password
    protocol := p.protocol
    country := p.country }

/-- ProxyUnit.get: throws when uninitialized, throws when exhausted,
otherwise returns the formatted first available item.  The returned state
component records that the method performs no writes. -/
def get (s : PoolState) : PoolState × Except ProxyError ProxyConnection :=
  if s.initialized = false then (s, .error .notInitialized)
  else
    match getFromPool s with
    | none => (s, .error .poolExhausted)
    | some p => (s, .ok (formatProxyConnection p))

/-- ProxyUnit.markProxyAsUsed: map over the pool setting used on matches. -/
def markProxyAsUsed (proxyId : String) (s : PoolState) : PoolState :=
  { s with proxies :=
      s.proxies.map (fun p => if p.id = proxyId then { p with used := true } else p) }

/-- ProxyUnit.shouldReplenish: availableCount <= poolSize * rotationThreshold.
The rational comparison is evaluated exactly by cross multiplication with
the positive denominator of the threshold; shouldReplenish_iff below
certifies that this equals the inequality as written in the code. -/
def shouldReplenish (cfg : ProxyConfig) (s : PoolState) : Bool :=
  decide ((availCount s : Int) * (cfg.rotationThreshold.den : Int) ≤
    (cfg.poolSize : Int) * cfg.rotationThreshold.num)

/-- ProxyUnit.isReplenishing. -/
def isReplenishing (s : PoolState) : Bool :=
  s.replenishing

/-- The synchronous part of ProxyUnit.replenishPool: set the replenishing
flag, read the pool, compute neededCount = poolSize - availableCount, and
hand that count to socker.replenish.  The second component is the count the
code passes to socker.replenish; the code calls it unconditionally, so the
option is always some. -/
def replenishPool (cfg : ProxyConfig) (s : PoolState) : PoolState × Option Int :=
  let s1 : PoolState := { s with replenishing := true }
  let availableCount : Nat := availCount s1
  let neededCount : Int := (cfg.poolSize : Int) - (availableCount : Int)
  (s1, some neededCount)

/-- ProxyUnit.addToPool. -/
def addToPool (now : Nat) (newProxies : List ProxyItem) (s : PoolState) : PoolState :=
  let updatedProxies := s.proxies ++ newProxies
  { s with
    proxies := updatedProxies
    size := updatedProxies.length
    lastRefresh := some now }

/-- The then/catch/finally continuation of ProxyUnit.replenishPool, applied
once the socker.replenish promise settles with the given outcome: append a
non-empty batch, ignore an empty one, swallow an error, and clear the
replenishing flag in every case. -/
def replenishPoolFinish (now : Nat) (outcome : Except String (List ProxyItem))
    (s : PoolState) : PoolState :=
  let s1 :=
    match outcome with
    | .ok newProxies => if 0 < newProxies.length then addToPool now newProxies s else s
    | .error _ => s
  { s1 with replenishing := false }

/-- ProxyUnit.exclusive: get, mark the result as used, then dispatch a
background refill when shouldReplenish holds and none is running.  The
third component is the count handed to socker.replenish when a refill task
was spawned. -/
def exclusive (cfg : ProxyConfig) (s : PoolState) :
    PoolState × Except ProxyError ProxyConnection × Option Int :=
  match get s with
  | (s0, .error e) => (s0, .error e, none)
  | (s0, .ok c) =>
    let s1 := markProxyAsUsed c.id s0
    if shouldReplenish cfg s1 && !(isReplenishing s1) then
      let r := replenishPool cfg s1
      (r.1, .ok c, r.2)
    else
      (s1, .ok c, none)

/-- ProxyUnit.removeFromPool. -/
def removeFromPool (proxyId : String) (s : PoolState) : PoolState :=
  let updatedProxies := s.proxies.filter (fun p => p.id ≠ proxyId)
  { s with proxies := updatedProxies, size := updatedProxies.length }

/-- ProxyUnit.failed: remove from the local pool, nothing else. -/
def failed (c : ProxyConnection) (s : PoolState) : PoolState :=
  removeFromPool c.id s

/-- A source as the orchestrator sees it: the IProxySource get method as a
pure outcome function, plus whether the optional remove method is present. -/
structure Source where
  tag : String
  get : Int → Except String (List ProxyItem)
  hasRemove : Bool

/-- The events SockerUnit emits from replenish. -/
inductive SockerEvent where
  | sourceFailed (message : String)
deriving Repr, DecidableEq

/-- SockerUnit.replenish: try sources in order; a thrown error emits a
source.failed event and continues; a non-empty batch returns immediately;
an empty batch silently continues; when the list is exhausted, throw. -/
def sockerReplenish (count : Int) : List Source → List SockerEvent × Except String (List ProxyItem)
  | [] => ([], .error ("All proxy sources exhausted"))
  | src :: rest =>
    match src.get count with
    | .ok proxies =>
      if 0 < proxies.length then ([], .ok proxies)
      else sockerReplenish count rest
    | .error msg =>
      let r := sockerReplenish count rest
      (.sourceFailed msg :: r.1, r.2)

/-- SockerUnit.remove: dispatch remove(id) to every source that has the
method; per-source errors become events and the call itself resolves.  The
result lists the (source tag, id) dispatches performed. -/
def sockerRemove (sources : List Source) (proxyId : String) : List (String × String) :=
  (sources.filter (fun src => src.hasRemove)).map (fun src => (src.tag, proxyId))

/-- ProxyUnit.delete: remove from the local pool, dispatch socker.remove
with the connection id (fire and forget), and resolve without error.  The
components are: new pool state, the method result, the dispatches made. -/
def delete (sources : List Source) (c : ProxyConnection) (s : PoolState) :
    PoolState × Except ProxyError Unit × List (String × String) :=
  (removeFromPool c.id s, .ok (), sockerRemove sources c.id)

/-- ProxyUnit.init with the outcome of socker.replenish(poolSize) passed
explicitly: idempotent when initialized; on success install the batch and
latch initialized; on failure re-throw and touch nothing. -/
def init (now : Nat) (outcome : Except String (List ProxyItem)) (s : PoolState) :
    PoolState × Except String Unit :=
  if s.initialized = true then (s, .ok ())
  else
    match outcome with
    | .ok initialProxies =>
      ({ proxies := initialProxies
         size := initialProxies.length
         lastRefresh := some now
         initialized := true
         replenishing := s.replenishing }, .ok ())
    | .error msg =>
      (s, .error ("[proxy] Proxy pool initialization failed: " ++ msg))

/-- ProxyStats as returned by ProxyUnit.getStats. -/
structure ProxyStats where
  poolSize : Nat
  currentSize : Nat
  available : Nat
  lastRefresh : Option Nat
  rotationThreshold : ℚ
  initialized : Bool
deriving DecidableEq

/-- ProxyUnit.getStats. -/
def getStats (cfg : ProxyConfig) (s : PoolState) : ProxyStats :=
  { poolSize := cfg.poolSize
    currentSize := s.size
    available := availCount s
    lastRefresh := s.lastRefresh
    rotationThreshold := cfg.rotationThreshold
    initialized := s.initialized }

/-- ProxyMeshConfig from sources/proxymesh.source.ts. -/
structure ProxyMeshConfig where
  login : String
  password : String
  host : String
  port : Nat
  protocol : Option String
deriving Repr, DecidableEq

/-- ProxyMeshSource instance state: the config plus the isActive flag. -/
structure ProxyMeshState where
  config : ProxyMeshConfig
  isActive : Bool
deriving Repr, DecidableEq

/-- The single ProxyItem ProxyMeshSource.get builds (Date.now() passed as
the now tick). -/
def proxyMeshItem (now : Nat) (cfg : ProxyMeshConfig) : ProxyItem :=
  { id := "proxymesh-" ++ cfg.host ++ "-" ++ toString now
    ttl := 3600
    source := "proxymesh"
    host := cfg.host
    port := cfg.port
    username := some cfg.login
    password := some cfg.password
    protocol := cfg.protocol.getD ("http")
    used := false
    createdAt := now
    country := none }

/-- ProxyMeshSource.get: throw when inactive, otherwise one endpoint item
regardless of the requested count. -/
def proxyMeshGet (now : Nat) (st : ProxyMeshState) (count : Int) :
    Except String (List ProxyItem) :=
  if st.isActive = false then .error ("ProxyMesh endpoint is inactive")
  else .ok [proxyMeshItem now st.config]

/-! ## Trace semantics

Public operations and refill completions as a labelled transition system.
The environment supplies the outcome of each socker.replenish call (the
batch a source delivered, or the error), and the pending queue records the
counts of the dispatched, not yet settled, background refill tasks. -/

instance {ε α : Type} [DecidableEq ε] [DecidableEq α] : DecidableEq (Except ε α) :=
  fun x y =>
    match x, y with
    | .ok a, .ok b =>
      if h : a = b then .isTrue (by rw [h])
      else .isFalse (fun hc => h (by cases hc; rfl))
    | .ok _, .error _ => .isFalse (fun hc => Except.noConfusion hc)
    | .error _, .ok _ => .isFalse (fun hc => Except.noConfusion hc)
    | .error e, .error f =>
      if h : e = f then .isTrue (by rw [h])
      else .isFalse (fun hc => h (by cases hc; rfl))

/-- One observable event of the system: a public method call, or the
settling of a previously dispatched background refill promise. -/
inductive Step where
  | stepInit (now : Nat) (outcome : Except String (List ProxyItem))
  | stepGet
  | stepExclusive
  | stepFailed (c : ProxyConnection)
  | stepDelete (c : ProxyConnection)
  | stepRefillDone (now : Nat) (outcome : Except String (List ProxyItem))
deriving Repr, DecidableEq

/-- Pool state plus the queue of outstanding background refill requests
(each entry is the count handed to socker.replenish at dispatch). -/
structure SysState where
  pool : PoolState
  pending : List Int
deriving Repr, DecidableEq

/-- Effect of one step on the system state. -/
def sysStep (cfg : ProxyConfig) : Step → SysState → SysState
  | .stepInit now outcome, st => { st with pool := (init now outcome st.pool).1 }
  | .stepGet, st => { st with pool := (get st.pool).1 }
  | .stepExclusive, st =>
    match exclusive cfg st.pool with
    | (p, _, some n) => { pool := p, pending := st.pending ++ [n] }
    | (p, _, none) => { st with pool := p }
  | .stepFailed c, st => { st with pool := failed c st.pool }
  | .stepDelete c, st => { st with pool := removeFromPool c.id st.pool }
  | .stepRefillDone now outcome, st =>
    match st.pending with
    | [] => st
    | _ :: rest => { pool := replenishPoolFinish now outcome st.pool, pending := rest }

/-- Run a list of steps from a system state. -/
def sysRun (cfg : ProxyConfig) : SysState → List Step → SysState
  | st, [] => st
  | st, stp :: rest => sysRun cfg (sysStep cfg stp st) rest

/-- The system state right after ProxyUnit.create. -/
def initialSys : SysState :=
  { pool := initialPoolState, pending := [] }

/-- Environment fairness for one step: a source batch never exceeds the
requested count (the IProxySource contract: may return fewer, never more).
init requests poolSize items; a refill completion answers the count at the
head of the pending queue. -/
def stepOk (cfg : ProxyConfig) (st : SysState) : Step → Bool
  | .stepInit _ (.ok batch) => decide (batch.length ≤ cfg.poolSize)
  | .stepRefillDone _ (.ok batch) =>
    match st.pending with
    | n :: _ => decide ((batch.length : Int) ≤ n)
    | [] => true
  | _ => true

/-- Environment fairness along a whole run. -/
def runOk (cfg : ProxyConfig) : SysState → List Step → Bool
  | _, [] => true
  | st, stp :: rest => stepOk cfg st stp && runOk cfg (sysStep cfg stp st) rest

/-- The inductive invariant tying the replenishing latch, the pending
queue and the unused count together. -/
def Inv (cfg : ProxyConfig) (st : SysState) : Prop :=
  availCount st.pool ≤ cfg.poolSize ∧
  (st.pool.replenishing = false → st.pending = []) ∧
  (st.pool.replenishing = true →
    ∃ n : Int, st.pending = [n] ∧ st.pool.initialized = true ∧
      n + (availCount st.pool : Int) ≤ (cfg.poolSize : Int))

/-- Every pool item carrying the given id is marked in use.  This is the
exclusivity barrier: acquisitions only ever serve unused items, so no item
with this id can be served while the predicate holds. -/
def allUsedWithId (x : String) (s : PoolState) : Prop :=
  ∀ p ∈ s.proxies, p.id = x → p.used = true

/-- No item of the batch carries the given id. -/
def noItemWithId (x : String) (batch : List ProxyItem) : Bool :=
  batch.all (fun p => p.id ≠ x)

/-- The step introduces no pool item carrying the given id (ids are unique
within the process lifetime, so batches never resurrect a served id). -/
def stepAvoids (x : String) : Step → Bool
  | .stepInit _ (.ok batch) => noItemWithId x batch
  | .stepRefillDone _ (.ok batch) => noItemWithId x batch
  | _ => true

/-! ## Concrete fixtures for witnesses and counterexamples -/

def itemA : ProxyItem :=
  { id := "a", ttl := 3600, source := "s", used := false, createdAt := 0,
    host := "h", port := 1, username := none, password := none,
    protocol := "http", country := none }

def itemB : ProxyItem := { itemA with id := "b" }

def itemC : ProxyItem := { itemA with id := "c" }

def itemD : ProxyItem := { itemA with id := "d" }

def itemE : ProxyItem := { itemA with id := "e" }

/-- The default rotation threshold 0.3 as an exact rational. -/
def ratThree10 : ℚ := ⟨3, 10, by norm_num, by norm_num⟩

def cfg2 : ProxyConfig := { poolSize := 2, rotationThreshold := ratThree10 }

/-- An initialized pool holding the single unused item itemA. -/
def sInit1 : PoolState :=
  { proxies := [itemA], size := 1, lastRefresh := some 0,
    initialized := true, replenishing := false }

/-- An initialized full pool (two items, one already in use). -/
def sC1 : PoolState :=
  { proxies := [itemA, { itemB with used := true }], size := 2,
    lastRefresh := none, initialized := true, replenishing := false }

/-- The pool state produced by exclusive on sC1. -/
def pC1 : PoolState :=
  { proxies := [{ itemA with used := true }, { itemB with used := true }],
    size := 2, lastRefresh := none, initialized := true, replenishing := true }

/-- init with a full batch, two exclusive acquisitions (the second trips the
low-water line and dispatches a refill for 2), then the refill settles with
a 2-item batch: the pool ends with 4 items against a target of 2. -/
def cexSteps : List Step :=
  [.stepInit 0 (.ok [itemA, itemB]), .stepExclusive, .stepExclusive,
   .stepRefillDone 1 (.ok [itemC, itemD])]

def pmCfg : ProxyMeshConfig :=
  { login := "u", password := "p", host := "pm.example", port := 31280,
    protocol := none }

def pmActive : ProxyMeshState := { config := pmCfg, isActive := true }

def pmInactive : ProxyMeshState := { config := pmCfg, isActive := false }

/-- A source whose fetch succeeds with an empty batch. -/
def srcEmpty : Source := { tag := "s1", get := fun _ => .ok [], hasRemove := false }

/-- A source whose fetch yields one item. -/
def srcOne : Source := { tag := "s2", get := fun _ => .ok [itemE], hasRemove := true }

/-- A source whose fetch always throws. -/
def srcBoom : Source :=
  { tag := "s0", get := fun _ => .error ("boom"), hasRemove := true }

/-! ## The refuted claims, formalized as stated -/

/-- Claim C1 as stated: every dispatched refill requests
poolSize - |pool| items, and a dispatch with that deficit non-positive is
impossible (the latch would be cleared and socker.replenish skipped). -/
def claimC1 : Prop :=
  ∀ (cfg : ProxyConfig) (s p : PoolState)
    (r : Except ProxyError ProxyConnection) (n : Int),
    exclusive cfg s = (p, r, some n) →
    n = (cfg.poolSize : Int) - (p.proxies.length : Int) ∧
    0 < (cfg.poolSize : Int) - (p.proxies.length : Int)

/-- Claim C2 as stated: along every fair run, the pool never exceeds
poolSize items. -/
def claimC2 : Prop :=
  ∀ (cfg : ProxyConfig) (steps : List Step),
    runOk cfg initialSys steps = true →
    (sysRun cfg initialSys steps).pool.proxies.length ≤ cfg.poolSize

/-- Claim C5 as stated (the empty-batch half): when a source returns an
empty batch during replenish, a source.failed event is emitted. -/
def claimC5 : Prop :=
  ∀ (count : Int) (src : Source) (rest : List Source),
    src.get count = .ok [] →
    0 < (sockerReplenish count (src :: rest)).1.length

/-- Claim C6 as stated: on an uninitialized pool, acquisitions and discard
all fail with the not-initialized error. -/
def claimC6 : Prop :=
  ∀ (cfg : ProxyConfig) (sources : List Source) (s : PoolState)
    (c : ProxyConnection),
    s.initialized = false →
    (get s).2 = .error .notInitialized ∧
    (exclusive cfg s).2.1 = .error .notInitialized ∧
    (∃ e, (delete sources c s).2.1 = .error e)

/-- Claim C9 as stated (the universal half): a source fetch never returns
more than the requested count. -/
def claimC9 : Prop :=
  ∀ (now : Nat) (st : ProxyMeshState) (n : Int) (ps : List ProxyItem),
    0 ≤ n → proxyMeshGet now st n = .ok ps → (ps.length : Int) ≤ n

/-! ## Basic lemmas about the operations -/

theorem shouldReplenish_iff (cfg : ProxyConfig) (s : PoolState) :
    shouldReplenish cfg s = true ↔
      ((availCount s : ℚ) ≤ (cfg.poolSize : ℚ) * cfg.rotationThreshold) := by
  have hden : (0 : ℚ) < (cfg.rotationThreshold.den : ℚ) := by
    exact_mod_cast cfg.rotationThreshold.pos
  unfold shouldReplenish
  rw [decide_eq_true_iff]
  have hval : (cfg.poolSize : ℚ) * cfg.rotationThreshold =
      ((cfg.poolSize : ℚ) * (cfg.rotationThreshold.num : ℚ)) /
        (cfg.rotationThreshold.den : ℚ) := by
    rw [mul_div_assoc, Rat.num_div_den]
  rw [hval, le_div_iff₀ hden]
  constructor
  · intro h
    exact_mod_cast h
  · intro h
    exact_mod_cast h

theorem get_fst (s : PoolState) : (get s).1 = s := by
  unfold get
  split
  · rfl
  · cases hq : getFromPool s <;> simp

theorem availCount_eq_countP (s : PoolState) :
    availCount s = s.proxies.countP (fun p => !p.used) := by
  simp [availCount, availableList, List.countP_eq_length_filter]

theorem availCount_markProxyAsUsed_le (i : String) (s : PoolState) :
    availCount (markProxyAsUsed i s) ≤ availCount s := by
  simp only [availCount_eq_countP, markProxyAsUsed, List.countP_map]
  apply List.countP_mono_left
  intro a _ h
  by_cases hid : a.id = i
  · simp [hid] at h
  · simpa [hid] using h

theorem availCount_removeFromPool_le (i : String) (s : PoolState) :
    availCount (removeFromPool i s) ≤ availCount s := by
  simp only [availCount_eq_countP, removeFromPool]
  exact (List.filter_sublist _).countP_le _

theorem availCount_addToPool (now : Nat) (ps : List ProxyItem) (s : PoolState) :
    availCount (addToPool now ps s) =
      availCount s + (ps.filter (fun p => !p.used)).length := by
  simp [availCount, availableList, addToPool, List.filter_append]

theorem length_eq_availCount_add_usedCount (s : PoolState) :
    s.proxies.length = availCount s + usedCount s := by
  simp only [availCount, availableList, usedCount]
  induction s.proxies with
  | nil => rfl
  | cons a t ih =>
    cases ha : a.used <;> simp [List.filter_cons, ha] <;> omega

theorem getFromPool_mem (s : PoolState) (q : ProxyItem) (h : getFromPool s = some q) :
    q ∈ s.proxies ∧ q.used = false := by
  unfold getFromPool availableList at h
  have hm : q ∈ s.proxies.filter (fun p => !p.used) := List.mem_of_mem_head? h
  rw [List.mem_filter] at hm
  exact ⟨hm.1, by simpa using hm.2⟩

/-- Complete case analysis of ProxyUnit.exclusive. -/
theorem exclusive_spec (cfg : ProxyConfig) (s : PoolState) :
    (s.initialized = false ∧ exclusive cfg s = (s, .error .notInitialized, none)) ∨
    (s.initialized = true ∧ getFromPool s = none ∧
      exclusive cfg s = (s, .error .poolExhausted, none)) ∨
    (∃ q, s.initialized = true ∧ getFromPool s = some q ∧
      ((shouldReplenish cfg (markProxyAsUsed q.id s) &&
          !(isReplenishing (markProxyAsUsed q.id s))) = true ∧
        exclusive cfg s = ({ markProxyAsUsed q.id s with replenishing := true },
          .ok (formatProxyConnection q),
          some ((cfg.poolSize : Int) - (availCount (markProxyAsUsed q.id s) : Int))) ∨
       (shouldReplenish cfg (markProxyAsUsed q.id s) &&
          !(isReplenishing (markProxyAsUsed q.id s))) = false ∧
        exclusive cfg s = (markProxyAsUsed q.id s, .ok (formatProxyConnection q), none))) := by
  by_cases hinit : s.initialized = false
  · left
    refine ⟨hinit, ?_⟩
    simp [exclusive, get, hinit]
  · right
    rw [Bool.not_eq_false] at hinit
    cases hq : getFromPool s with
    | none =>
      left
      refine ⟨hinit, rfl, ?_⟩
      simp [exclusive, get, hinit, hq]
    | some q =>
      right
      refine ⟨q, hinit, rfl, ?_⟩
      have hc : (formatProxyConnection q).id = q.id := rfl
      by_cases hcond : (shouldReplenish cfg (markProxyAsUsed q.id s) &&
          !(isReplenishing (markProxyAsUsed q.id s))) = true
      · left
        refine ⟨hcond, ?_⟩
        simp [exclusive, get, hinit, hq, hc, hcond, replenishPool, availCount, availableList]
      · right
        rw [Bool.not_eq_true] at hcond
        refine ⟨hcond, ?_⟩
        simp [exclusive, get, hinit, hq, hc, hcond]

theorem removeFromPool_replenishing (i : String) (s : PoolState) :
    (removeFromPool i s).replenishing = s.replenishing := rfl

theorem removeFromPool_initialized (i : String) (s : PoolState) :
    (removeFromPool i s).initialized = s.initialized := rfl

theorem replenishPoolFinish_replenishing (now : Nat)
    (outcome : Except String (List ProxyItem)) (s : PoolState) :
    (replenishPoolFinish now outcome s).replenishing = false := rfl

/-- Facts about a dispatching exclusive call: the latch was clear, the pool
was initialized, the latch is set in the post state, the unused count did
not grow, and the requested count is poolSize minus the post-marking
unused count. -/
theorem exclusive_dispatch (cfg : ProxyConfig) (s p : PoolState)
    (r : Except ProxyError ProxyConnection) (n : Int)
    (h : exclusive cfg s = (p, r, some n)) :
    s.replenishing = false ∧ s.initialized = true ∧ p.replenishing = true ∧
    p.initialized = true ∧ availCount p ≤ availCount s ∧
    n = (cfg.poolSize : Int) - (availCount p : Int) := by
  rcases exclusive_spec cfg s with ⟨h1, he⟩ | ⟨h1, h2, he⟩ |
    ⟨q, h1, h2, ⟨hcond, he⟩ | ⟨hcond, he⟩⟩
  · rw [he] at h
    injection h with hp h'
    injection h' with hr hn
    cases hn
  · rw [he] at h
    injection h with hp h'
    injection h' with hr hn
    cases hn
  · rw [he] at h
    injection h with hp h'
    injection h' with hr hn
    injection hn with hn'
    have hflag : (markProxyAsUsed q.id s).replenishing = false := by
      have hc2 := (Bool.and_eq_true _ _).mp hcond |>.2
      simpa [isReplenishing] using hc2
    subst hp
    refine ⟨hflag, h1, rfl, h1, ?_, ?_⟩
    · have : availCount { markProxyAsUsed q.id s with replenishing := true } =
          availCount (markProxyAsUsed q.id s) := rfl
      rw [this]
      exact availCount_markProxyAsUsed_le q.id s
    · rw [← hn']
      rfl
  · rw [he] at h
    injection h with hp h'
    injection h' with hr hn
    cases hn

/-- Facts about a non-dispatching exclusive call: flags are untouched and
the unused count does not grow. -/
theorem exclusive_nodispatch (cfg : ProxyConfig) (s p : PoolState)
    (r : Except ProxyError ProxyConnection)
    (h : exclusive cfg s = (p, r, none)) :
    p.replenishing = s.replenishing ∧ p.initialized = s.initialized ∧
    availCount p ≤ availCount s := by
  rcases exclusive_spec cfg s with ⟨h1, he⟩ | ⟨h1, h2, he⟩ |
    ⟨q, h1, h2, ⟨hcond, he⟩ | ⟨hcond, he⟩⟩
  · rw [he] at h
    injection h with hp h'
    injection h' with hr hn
    subst hp
    exact ⟨rfl, rfl, le_refl _⟩
  · rw [he] at h
    injection h with hp h'
    injection h' with hr hn
    subst hp
    exact ⟨rfl, rfl, le_refl _⟩
  · rw [he] at h
    injection h with hp h'
    injection h' with hr hn
    cases hn
  · rw [he] at h
    injection h with hp h'
    injection h' with hr hn
    subst hp
    exact ⟨rfl, rfl, availCount_markProxyAsUsed_le q.id s⟩

theorem allUsed_markProxyAsUsed (i : String) (s : PoolState) :
    allUsedWithId i (markProxyAsUsed i s) := by
  intro p hp hid
  simp only [markProxyAsUsed, List.mem_map] at hp
  obtain ⟨q, hq, hqe⟩ := hp
  by_cases h : q.id = i
  · rw [← hqe]
    simp [h]
  · rw [← hqe] at hid
    simp [h] at hid

theorem allUsed_mark_other (x j : String) (s : PoolState)
    (h : allUsedWithId x s) : allUsedWithId x (markProxyAsUsed j s) := by
  intro p hp hid
  simp only [markProxyAsUsed, List.mem_map] at hp
  obtain ⟨q, hq, hqe⟩ := hp
  by_cases hj : q.id = j
  · rw [← hqe]
    simp [hj]
  · rw [← hqe] at hid ⊢
    simp [hj] at hid ⊢
    exact h q hq hid

theorem allUsed_removeFromPool (x i : String) (s : PoolState)
    (h : allUsedWithId x s) : allUsedWithId x (removeFromPool i s) := by
  intro p hp hid
  simp only [removeFromPool] at hp
  exact h p (List.mem_of_mem_filter hp) hid

theorem allUsed_flag (x : String) (s : PoolState) (b : Bool)
    (h : allUsedWithId x s) : allUsedWithId x { s with replenishing := b } := h

theorem get_ok_unused (s : PoolState) (c : ProxyConnection)
    (h : (get s).2 = .ok c) :
    ∃ q, q ∈ s.proxies ∧ q.used = false ∧ formatProxyConnection q = c := by
  unfold get at h
  by_cases hinit : s.initialized = false
  · rw [if_pos hinit] at h
    cases h
  · rw [if_neg hinit] at h
    cases hq : getFromPool s with
    | none =>
      rw [hq] at h
      cases h
    | some q =>
      rw [hq] at h
      obtain ⟨hmem, hun⟩ := getFromPool_mem s q hq
      refine ⟨q, hmem, hun, ?_⟩
      have h2 : Except.ok (formatProxyConnection q) = Except.ok c := h
      injection h2

theorem get_ok_ne_of_allUsed (s : PoolState) (x : String) (c : ProxyConnection)
    (hA : allUsedWithId x s) (h : (get s).2 = .ok c) : c.id ≠ x := by
  obtain ⟨q, hmem, hun, hfmt⟩ := get_ok_unused s c h
  intro hcx
  have hqid : q.id = x := by
    rw [← hfmt] at hcx
    exact hcx
  have hused := hA q hmem hqid
  rw [hused] at hun
  cases hun

theorem exclusive_ok_get_ok (cfg : ProxyConfig) (s : PoolState) (c : ProxyConnection)
    (h : (exclusive cfg s).2.1 = .ok c) : (get s).2 = .ok c := by
  rcases exclusive_spec cfg s with ⟨h1, he⟩ | ⟨h1, h2, he⟩ |
    ⟨q, h1, h2, ⟨hc, he⟩ | ⟨hc, he⟩⟩
  · rw [he] at h
    cases h
  · rw [he] at h
    cases h
  · rw [he] at h
    have h3 : (get s).2 = .ok (formatProxyConnection q) := by
      simp [get, h1, h2]
    rw [h3]
    exact h
  · rw [he] at h
    have h3 : (get s).2 = .ok (formatProxyConnection q) := by
      simp [get, h1, h2]
    rw [h3]
    exact h

theorem exclusive_ok_allUsed (cfg : ProxyConfig) (s : PoolState) (c : ProxyConnection)
    (h : (exclusive cfg s).2.1 = .ok c) :
    allUsedWithId c.id (exclusive cfg s).1 := by
  rcases exclusive_spec cfg s with ⟨h1, he⟩ | ⟨h1, h2, he⟩ |
    ⟨q, h1, h2, ⟨hc, he⟩ | ⟨hc, he⟩⟩
  · rw [he] at h
    cases h
  · rw [he] at h
    cases h
  · rw [he] at h ⊢
    have h2c : Except.ok (formatProxyConnection q) = Except.ok c := h
    injection h2c with h3
    rw [← h3]
    exact allUsed_flag q.id (markProxyAsUsed q.id s) true (allUsed_markProxyAsUsed q.id s)
  · rw [he] at h ⊢
    have h2c : Except.ok (formatProxyConnection q) = Except.ok c := h
    injection h2c with h3
    rw [← h3]
    exact allUsed_markProxyAsUsed q.id s

theorem allUsed_sysStep (cfg : ProxyConfig) (x : String) (st : SysState) (stp : Step)
    (hA : allUsedWithId x st.pool) (hS : stepAvoids x stp = true) :
    allUsedWithId x (sysStep cfg stp st).pool := by
  cases stp with
  | stepInit now outcome =>
    by_cases hinit : st.pool.initialized = true
    · have hfst : (init now outcome st.pool).1 = st.pool := by
        simp [init, hinit]
      simp only [sysStep, hfst]
      exact hA
    · rw [Bool.not_eq_true] at hinit
      cases outcome with
      | error msg =>
        have hfst : (init now (.error msg) st.pool).1 = st.pool := by
          simp [init, hinit]
        simp only [sysStep, hfst]
        exact hA
      | ok batch =>
        have hno : noItemWithId x batch = true := by
          simpa [stepAvoids] using hS
        have hfst : (init now (.ok batch) st.pool).1 =
            { proxies := batch
              size := batch.length
              lastRefresh := some now
              initialized := true
              replenishing := st.pool.replenishing } := by
          simp [init, hinit]
        simp only [sysStep, hfst]
        intro p hp hid
        have hne := List.all_eq_true.mp hno p hp
        rw [decide_eq_true_iff] at hne
        exact absurd hid hne
  | stepGet =>
    simp only [sysStep, get_fst]
    exact hA
  | stepExclusive =>
    rcases exclusive_spec cfg st.pool with ⟨h1, he⟩ | ⟨h1, h2, he⟩ |
      ⟨q, h1, h2, ⟨hc, he⟩ | ⟨hc, he⟩⟩
    · simp only [sysStep, he]
      exact hA
    · simp only [sysStep, he]
      exact hA
    · simp only [sysStep, he]
      exact allUsed_flag x (markProxyAsUsed q.id st.pool) true
        (allUsed_mark_other x q.id st.pool hA)
    · simp only [sysStep, he]
      exact allUsed_mark_other x q.id st.pool hA
  | stepFailed c =>
    simp only [sysStep, failed]
    exact allUsed_removeFromPool x c.id st.pool hA
  | stepDelete c =>
    simp only [sysStep]
    exact allUsed_removeFromPool x c.id st.pool hA
  | stepRefillDone now outcome =>
    cases hp : st.pending with
    | nil =>
      have hstep : sysStep cfg (Step.stepRefillDone now outcome) st = st := by
        simp only [sysStep, hp]
      rw [hstep]
      exact hA
    | cons n rest =>
      simp only [sysStep, hp]
      show allUsedWithId x (replenishPoolFinish now outcome st.pool)
      cases outcome with
      | error msg =>
        exact allUsed_flag x st.pool false hA
      | ok batch =>
        have hno : noItemWithId x batch = true := by
          simpa [stepAvoids] using hS
        by_cases hne : 0 < batch.length
        · have h1 : replenishPoolFinish now (.ok batch) st.pool =
              { addToPool now batch st.pool with replenishing := false } := by
            simp [replenishPoolFinish, hne]
          rw [h1]
          intro p hp2 hid
          rcases List.mem_append.mp hp2 with hmem | hmem
          · exact hA p hmem hid
          · have hne2 := List.all_eq_true.mp hno p hmem
            rw [decide_eq_true_iff] at hne2
            exact absurd hid hne2
        · have h1 : replenishPoolFinish now (.ok batch) st.pool =
              { st.pool with replenishing := false } := by
            simp [replenishPoolFinish, hne]
          rw [h1]
          exact allUsed_flag x st.pool false hA

theorem allUsed_sysRun (cfg : ProxyConfig) (x : String) (st : SysState)
    (steps : List Step) (hA : allUsedWithId x st.pool)
    (hS : ∀ stp ∈ steps, stepAvoids x stp = true) :
    allUsedWithId x (sysRun cfg st steps).pool := by
  induction steps generalizing st with
  | nil => exact hA
  | cons stp rest ih =>
    exact ih (sysStep cfg stp st)
      (allUsed_sysStep cfg x st stp hA (hS stp (List.mem_cons_self _ _)))
      (fun s2 hs => hS s2 (List.mem_cons_of_mem _ hs))

/-- The invariant holds at creation time. -/
theorem inv_initial (cfg : ProxyConfig) : Inv cfg initialSys := by
  refine ⟨?_, fun _ => rfl, ?_⟩
  · simp [availCount, availableList, initialSys, initialPoolState]
  · intro h
    cases h

/-- One fair step preserves the invariant. -/
theorem inv_preserved (cfg : ProxyConfig) (st : SysState) (stp : Step)
    (hI : Inv cfg st) (hOk : stepOk cfg st stp = true) :
    Inv cfg (sysStep cfg stp st) := by
  obtain ⟨hAvail, hIdle, hRun⟩ := hI
  cases stp with
  | stepInit now outcome =>
    by_cases hinit : st.pool.initialized = true
    · have hfst : (init now outcome st.pool).1 = st.pool := by
        simp [init, hinit]
      simp only [sysStep, hfst]
      exact ⟨hAvail, hIdle, hRun⟩
    · rw [Bool.not_eq_true] at hinit
      have hrep : st.pool.replenishing = false := by
        by_contra hc
        rw [Bool.not_eq_false] at hc
        obtain ⟨n, -, hInit2, -⟩ := hRun hc
        rw [hinit] at hInit2
        cases hInit2
      have hpend : st.pending = [] := hIdle hrep
      cases outcome with
      | error msg =>
        have hfst : (init now (.error msg) st.pool).1 = st.pool := by
          simp [init, hinit]
        simp only [sysStep, hfst]
        exact ⟨hAvail, hIdle, hRun⟩
      | ok batch =>
        have hb : batch.length ≤ cfg.poolSize := by
          simpa [stepOk] using hOk
        have hfst : (init now (.ok batch) st.pool).1 =
            { proxies := batch
              size := batch.length
              lastRefresh := some now
              initialized := true
              replenishing := st.pool.replenishing } := by
          simp [init, hinit]
        simp only [sysStep, hfst]
        refine ⟨?_, fun _ => hpend, ?_⟩
        · show (batch.filter (fun p => !p.used)).length ≤ cfg.poolSize
          exact le_trans (List.length_filter_le _ _) hb
        · intro hc
          have hc2 : st.pool.replenishing = true := hc
          rw [hrep] at hc2
          cases hc2
  | stepGet =>
    have hfst : (get st.pool).1 = st.pool := get_fst st.pool
    simp only [sysStep, hfst]
    exact ⟨hAvail, hIdle, hRun⟩
  | stepExclusive =>
    rcases hE : exclusive cfg st.pool with ⟨p, r, o⟩
    cases o with
    | some n =>
      obtain ⟨hsrep, hsinit, hprep, hpinit, hple, hn⟩ :=
        exclusive_dispatch cfg st.pool p r n hE
      have hpend : st.pending = [] := hIdle hsrep
      simp only [sysStep, hE]
      refine ⟨le_trans hple hAvail, ?_, ?_⟩
      · intro hc
        rw [hprep] at hc
        cases hc
      · intro _
        refine ⟨n, ?_, hpinit, ?_⟩
        · rw [hpend]
          rfl
        · show n + (availCount p : Int) ≤ (cfg.poolSize : Int)
          omega
    | none =>
      obtain ⟨hprep, hpinit, hple⟩ := exclusive_nodispatch cfg st.pool p r hE
      simp only [sysStep, hE]
      refine ⟨le_trans hple hAvail, ?_, ?_⟩
      · intro hc
        rw [hprep] at hc
        exact hIdle hc
      · intro hc
        rw [hprep] at hc
        obtain ⟨n, hpnd, hini, hbound⟩ := hRun hc
        refine ⟨n, hpnd, by rw [hpinit]; exact hini, ?_⟩
        show n + (availCount p : Int) ≤ (cfg.poolSize : Int)
        omega
  | stepFailed c =>
    simp only [sysStep, failed]
    refine ⟨le_trans (availCount_removeFromPool_le c.id st.pool) hAvail, ?_, ?_⟩
    · intro hc
      rw [removeFromPool_replenishing] at hc
      exact hIdle hc
    · intro hc
      rw [removeFromPool_replenishing] at hc
      obtain ⟨n, hpnd, hini, hbound⟩ := hRun hc
      refine ⟨n, hpnd, by rw [removeFromPool_initialized]; exact hini, ?_⟩
      have := availCount_removeFromPool_le c.id st.pool
      show n + (availCount (removeFromPool c.id st.pool) : Int) ≤ (cfg.poolSize : Int)
      omega
  | stepDelete c =>
    simp only [sysStep]
    refine ⟨le_trans (availCount_removeFromPool_le c.id st.pool) hAvail, ?_, ?_⟩
    · intro hc
      rw [removeFromPool_replenishing] at hc
      exact hIdle hc
    · intro hc
      rw [removeFromPool_replenishing] at hc
      obtain ⟨n, hpnd, hini, hbound⟩ := hRun hc
      refine ⟨n, hpnd, by rw [removeFromPool_initialized]; exact hini, ?_⟩
      have := availCount_removeFromPool_le c.id st.pool
      show n + (availCount (removeFromPool c.id st.pool) : Int) ≤ (cfg.poolSize : Int)
      omega
  | stepRefillDone now outcome =>
    cases hp : st.pending with
    | nil =>
      have hstep : sysStep cfg (Step.stepRefillDone now outcome) st = st := by
        simp only [sysStep, hp]
      rw [hstep]
      exact ⟨hAvail, hIdle, hRun⟩
    | cons n rest =>
      have hrep : st.pool.replenishing = true := by
        by_contra hc
        rw [Bool.not_eq_true] at hc
        have := hIdle hc
        rw [hp] at this
        cases this
      obtain ⟨m, hpnd, hini, hbound⟩ := hRun hrep
      rw [hp] at hpnd
      injection hpnd with hm hrest
      subst hm
      subst hrest
      simp only [sysStep, hp]
      refine ⟨?_, fun _ => rfl, ?_⟩
      · show availCount (replenishPoolFinish now outcome st.pool) ≤ cfg.poolSize
        cases outcome with
        | error msg =>
          have h2 : availCount (replenishPoolFinish now (.error msg) st.pool) =
              availCount st.pool := rfl
          rw [h2]
          exact hAvail
        | ok batch =>
          have hbl : (batch.length : Int) ≤ n := by
            have h3 := hOk
            simp only [stepOk, hp] at h3
            exact of_decide_eq_true h3
          by_cases hne : 0 < batch.length
          · have h1 : replenishPoolFinish now (.ok batch) st.pool =
                { addToPool now batch st.pool with replenishing := false } := by
              simp [replenishPoolFinish, hne]
            rw [h1]
            have h2 : availCount { addToPool now batch st.pool with replenishing := false } =
                availCount (addToPool now batch st.pool) := rfl
            rw [h2, availCount_addToPool]
            have hfle : (batch.filter (fun q => !q.used)).length ≤ batch.length :=
              List.length_filter_le _ _
            omega
          · have h1 : replenishPoolFinish now (.ok batch) st.pool =
                { st.pool with replenishing := false } := by
              simp [replenishPoolFinish, hne]
            rw [h1]
            have h2 : availCount { st.pool with replenishing := false } =
                availCount st.pool := rfl
            rw [h2]
            exact hAvail
      · intro hc
        have hc2 : (replenishPoolFinish now outcome st.pool).replenishing = true := hc
        rw [replenishPoolFinish_replenishing] at hc2
        cases hc2

/-- A fair run from the creation state keeps the invariant. -/
theorem inv_run (cfg : ProxyConfig) (st : SysState) (steps : List Step)
    (hI : Inv cfg st) (hOk : runOk cfg st steps = true) :
    Inv cfg (sysRun cfg st steps) := by
  induction steps generalizing st with
  | nil => exact hI
  | cons stp rest ih =>
    rw [runOk] at hOk
    obtain ⟨h1, h2⟩ := Bool.and_eq_true _ _ |>.mp hOk
    exact ih (sysStep cfg stp st) (inv_preserved cfg st stp hI h1) h2

/-! ## Claims -/

theorem exclusive_cfg2_sC1 :
    exclusive cfg2 sC1 = (pC1, .ok (formatProxyConnection itemA), some 2) := by
  decide

/-- Claim C1 counterexample: on the full two-item pool sC1 (one item in
use), a dispatched refill requests 2 items even though the claimed deficit
target_size - |pool| is 0, and socker.replenish is invoked rather than the
latch being cleared. -/
theorem C1_counterexample : ¬ claimC1 := by
  intro h
  obtain ⟨h1, h2⟩ :=
    h cfg2 sC1 pC1 (.ok (formatProxyConnection itemA)) 2 exclusive_cfg2_sC1
  have hlen : pC1.proxies.length = 2 := by decide
  have hsz : cfg2.poolSize = 2 := by decide
  rw [hlen, hsz] at h2
  omega

/-- Claim C1 amended: a dispatched background refill requests
poolSize - availableCount items (counting only unused items, not the whole
pool), it always invokes socker.replenish (there is no deficit check or
early exit), the refilling latch is set at dispatch and was clear before,
and the completion continuation clears the latch in every outcome. -/
theorem C1_amended (cfg : ProxyConfig) (s p : PoolState)
    (r : Except ProxyError ProxyConnection) (n : Int)
    (h : exclusive cfg s = (p, r, some n)) :
    n = (cfg.poolSize : Int) - (availCount p : Int) ∧
    p.replenishing = true ∧ s.replenishing = false ∧
    (∀ q : PoolState, ((replenishPool cfg q).2).isSome = true) ∧
    (∀ (now : Nat) (outcome : Except String (List ProxyItem)) (q : PoolState),
      (replenishPoolFinish now outcome q).replenishing = false) := by
  obtain ⟨hsrep, hsinit, hprep, hpinit, hple, hn⟩ :=
    exclusive_dispatch cfg s p r n h
  exact ⟨hn, hprep, hsrep, fun q => rfl, fun now outcome q => rfl⟩

/-- Claim C1 witness: the amended statement at the concrete dispatch. -/
theorem C1_witness :
    (2 : Int) = (cfg2.poolSize : Int) - (availCount pC1 : Int) ∧
    pC1.replenishing = true ∧ sC1.replenishing = false ∧
    (∀ q : PoolState, ((replenishPool cfg2 q).2).isSome = true) ∧
    (∀ (now : Nat) (outcome : Except String (List ProxyItem)) (q : PoolState),
      (replenishPoolFinish now outcome q).replenishing = false) :=
  C1_amended cfg2 sC1 pC1 (.ok (formatProxyConnection itemA)) 2 (by decide)

/-- Claim C2 counterexample: the fair four-step run cexSteps ends with a
pool of 4 items against a target size of 2. -/
theorem C2_counterexample : ¬ claimC2 := by
  intro h
  have h2 := h cfg2 cexSteps (by decide)
  have h3 : (sysRun cfg2 initialSys cexSteps).pool.proxies.length = 4 := by
    decide
  have h4 : cfg2.poolSize = 2 := by decide
  rw [h3, h4] at h2
  omega

/-- Claim C2 amended: along every fair run the number of unused items
never exceeds target_size, and the total pool size is bounded by
target_size plus the number of in-use items (the refill deficit is
computed against the unused count, so in-use items can push the total
above target_size). -/
theorem C2_amended (cfg : ProxyConfig) (steps : List Step)
    (h : runOk cfg initialSys steps = true) :
    availCount (sysRun cfg initialSys steps).pool ≤ cfg.poolSize ∧
    (sysRun cfg initialSys steps).pool.proxies.length ≤
      cfg.poolSize + usedCount (sysRun cfg initialSys steps).pool := by
  obtain ⟨hAvail, -, -⟩ := inv_run cfg initialSys steps (inv_initial cfg) h
  refine ⟨hAvail, ?_⟩
  have hpart := length_eq_availCount_add_usedCount (sysRun cfg initialSys steps).pool
  omega

/-- Claim C2 witness: the amended bound at the concrete run. -/
theorem C2_witness :
    availCount (sysRun cfg2 initialSys cexSteps).pool ≤ cfg2.poolSize ∧
    (sysRun cfg2 initialSys cexSteps).pool.proxies.length ≤
      cfg2.poolSize + usedCount (sysRun cfg2 initialSys cexSteps).pool :=
  C2_amended cfg2 cexSteps (by decide)

/-- Claim C3: after acquireExclusive returns connection X, every pool item
carrying the id of X is marked in use; the barrier is preserved by every later
operation whose batches do not reuse the id; while it holds neither
acquire nor acquireExclusive can return X; and an acquisition never
returns an item marked in use. -/
theorem C3_exclusivity :
    (∀ (cfg : ProxyConfig) (s : PoolState) (c : ProxyConnection),
      (exclusive cfg s).2.1 = .ok c → allUsedWithId c.id (exclusive cfg s).1) ∧
    (∀ (cfg : ProxyConfig) (st : SysState) (steps : List Step) (x : String),
      allUsedWithId x st.pool → (∀ stp ∈ steps, stepAvoids x stp = true) →
      allUsedWithId x (sysRun cfg st steps).pool) ∧
    (∀ (s : PoolState) (x : String) (c : ProxyConnection),
      allUsedWithId x s → (get s).2 = .ok c → c.id ≠ x) ∧
    (∀ (cfg : ProxyConfig) (s : PoolState) (x : String) (c : ProxyConnection),
      allUsedWithId x s → (exclusive cfg s).2.1 = .ok c → c.id ≠ x) ∧
    (∀ (s : PoolState) (c : ProxyConnection),
      (get s).2 = .ok c → ∃ q, q ∈ s.proxies ∧ q.used = false ∧
        formatProxyConnection q = c) := by
  refine ⟨exclusive_ok_allUsed, ?_, get_ok_ne_of_allUsed, ?_, get_ok_unused⟩
  · intro cfg st steps x hA hS
    exact allUsed_sysRun cfg x st steps hA hS
  · intro cfg s x c hA h
    exact get_ok_ne_of_allUsed s x c hA (exclusive_ok_get_ok cfg s c h)

/-- Claim C3 witness: the barrier holds after the concrete exclusive
acquisition of itemA. -/
theorem C3_witness :
    allUsedWithId (itemA.id) (exclusive cfg2 sInit1).1 :=
  C3_exclusivity.1 cfg2 sInit1 (formatProxyConnection itemA) (by decide)

/-- Claim C4: along every fair run at most one background refill task is
outstanding and the refilling latch tracks it exactly; a refill is
dispatched only while the latch is clear and the latch is set at dispatch;
the completion continuation clears it in both outcomes. -/
theorem C4_refill_singleton (cfg : ProxyConfig) (steps : List Step)
    (h : runOk cfg initialSys steps = true) :
    ((sysRun cfg initialSys steps).pending.length ≤ 1 ∧
      ((sysRun cfg initialSys steps).pool.replenishing = true ↔
        (sysRun cfg initialSys steps).pending.length = 1)) ∧
    (∀ (s p : PoolState) (r : Except ProxyError ProxyConnection) (n : Int),
      exclusive cfg s = (p, r, some n) →
      s.replenishing = false ∧ p.replenishing = true) ∧
    (∀ (now : Nat) (outcome : Except String (List ProxyItem)) (q : PoolState),
      (replenishPoolFinish now outcome q).replenishing = false) := by
  obtain ⟨-, hIdle, hRun⟩ := inv_run cfg initialSys steps (inv_initial cfg) h
  refine ⟨⟨?_, ?_, ?_⟩, ?_, fun now outcome q => rfl⟩
  · by_cases hrep : (sysRun cfg initialSys steps).pool.replenishing = true
    · obtain ⟨n, hpnd, -, -⟩ := hRun hrep
      rw [hpnd]
      simp
    · rw [Bool.not_eq_true] at hrep
      rw [hIdle hrep]
      simp
  · intro hrep
    obtain ⟨n, hpnd, -, -⟩ := hRun hrep
    rw [hpnd]
    rfl
  · intro hlen
    by_contra hrep
    rw [Bool.not_eq_true] at hrep
    rw [hIdle hrep] at hlen
    simp at hlen
  · intro s p r n hE
    obtain ⟨hsrep, -, hprep, -, -, -⟩ := exclusive_dispatch cfg s p r n hE
    exact ⟨hsrep, hprep⟩

/-- Claim C4 witness: the singleton-refill properties at the concrete run. -/
theorem C4_witness :
    ((sysRun cfg2 initialSys cexSteps).pending.length ≤ 1 ∧
      ((sysRun cfg2 initialSys cexSteps).pool.replenishing = true ↔
        (sysRun cfg2 initialSys cexSteps).pending.length = 1)) ∧
    (∀ (s p : PoolState) (r : Except ProxyError ProxyConnection) (n : Int),
      exclusive cfg2 s = (p, r, some n) →
      s.replenishing = false ∧ p.replenishing = true) ∧
    (∀ (now : Nat) (outcome : Except String (List ProxyItem)) (q : PoolState),
      (replenishPoolFinish now outcome q).replenishing = false) :=
  C4_refill_singleton cfg2 cexSteps (by decide)

/-- Claim C5 counterexample: a source that returns an empty batch is
skipped silently; when the next source succeeds, the event list of the
replenish call is empty, so no source.failed event was emitted for the
empty batch. -/
theorem C5_counterexample : ¬ claimC5 := by
  intro h
  have h2 := h 5 srcEmpty [srcOne] rfl
  simp [sockerReplenish, srcEmpty, srcOne] at h2

/-- Claim C5 amended: replenish tries sources in configured order and
returns the first non-empty batch immediately without consulting later
sources; a thrown source error emits a source.failed event and advances;
an empty batch advances to the next source without emitting any event; if
every source fails or yields empty the call fails with the
all-sources-exhausted error. -/
theorem C5_amended :
    (∀ count : Int,
      sockerReplenish count [] = ([], .error ("All proxy sources exhausted"))) ∧
    (∀ (count : Int) (src : Source) (rest : List Source) (ps : List ProxyItem),
      src.get count = .ok ps → 0 < ps.length →
      sockerReplenish count (src :: rest) = ([], .ok ps)) ∧
    (∀ (count : Int) (src : Source) (rest : List Source),
      src.get count = .ok [] →
      sockerReplenish count (src :: rest) = sockerReplenish count rest) ∧
    (∀ (count : Int) (src : Source) (rest : List Source) (msg : String),
      src.get count = .error msg →
      sockerReplenish count (src :: rest) =
        (SockerEvent.sourceFailed msg :: (sockerReplenish count rest).1,
          (sockerReplenish count rest).2)) ∧
    (∀ (count : Int) (sources : List Source),
      (∀ src ∈ sources, src.get count = .ok [] ∨ ∃ msg, src.get count = .error msg) →
      (sockerReplenish count sources).2 = .error ("All proxy sources exhausted")) := by
  refine ⟨fun count => rfl, ?_, ?_, ?_, ?_⟩
  · intro count src rest ps hps hlen
    simp [sockerReplenish, hps, hlen]
  · intro count src rest h
    simp [sockerReplenish, h]
  · intro count src rest msg h
    simp [sockerReplenish, h]
  · intro count sources h
    induction sources with
    | nil => rfl
    | cons src rest ih =>
      rcases h src (List.mem_cons_self _ _) with hok | ⟨msg, herr⟩
      · have hstep : sockerReplenish count (src :: rest) = sockerReplenish count rest := by
          simp [sockerReplenish, hok]
        rw [hstep]
        exact ih (fun s2 hs => h s2 (List.mem_cons_of_mem _ hs))
      · have hstep : (sockerReplenish count (src :: rest)).2 =
            (sockerReplenish count rest).2 := by
          simp [sockerReplenish, herr]
        rw [hstep]
        exact ih (fun s2 hs => h s2 (List.mem_cons_of_mem _ hs))

/-- Claim C5 witness: the first-non-empty-batch behavior at a concrete
source list. -/
theorem C5_witness :
    sockerReplenish 5 [srcOne, srcBoom] = ([], .ok [itemE]) :=
  C5_amended.2.1 5 srcOne [srcBoom] [itemE] rfl (by decide)

/-- Claim C6 counterexample: on the uninitialized creation state, delete
resolves with ok rather than failing with a not-initialized error. -/
theorem C6_counterexample : ¬ claimC6 := by
  intro h
  obtain ⟨-, -, ⟨e, he⟩⟩ :=
    h cfg2 [] initialPoolState (formatProxyConnection itemA) rfl
  simp [delete] at he

/-- Claim C6 amended: on an uninitialized pool both acquisitions fail with
the not-initialized error (and exclusive dispatches no refill), while
delete performs no initialization check: it removes locally, dispatches
the source release, and resolves without error. -/
theorem C6_amended (cfg : ProxyConfig) (sources : List Source) (s : PoolState)
    (c : ProxyConnection) (h : s.initialized = false) :
    (get s).2 = .error .notInitialized ∧
    (exclusive cfg s).2.1 = .error .notInitialized ∧
    (exclusive cfg s).2.2 = none ∧
    (delete sources c s).2.1 = .ok () ∧
    (delete sources c s).1 = removeFromPool c.id s ∧
    (delete sources c s).2.2 = sockerRemove sources c.id := by
  have hg : get s = (s, .error .notInitialized) := by
    simp [get, h]
  refine ⟨by rw [hg], ?_, ?_, rfl, rfl, rfl⟩
  · rcases exclusive_spec cfg s with ⟨h1, he⟩ | ⟨h1, h2, he⟩ | ⟨q, h1, h2, hrest⟩
    · rw [he]
    · simp [h1] at h
    · simp [h1] at h
  · rcases exclusive_spec cfg s with ⟨h1, he⟩ | ⟨h1, h2, he⟩ | ⟨q, h1, h2, hrest⟩
    · rw [he]
    · simp [h1] at h
    · simp [h1] at h

/-- Claim C6 witness: the amended statement on the creation state. -/
theorem C6_witness :
    (get initialPoolState).2 = .error .notInitialized ∧
    (exclusive cfg2 initialPoolState).2.1 = .error .notInitialized ∧
    (exclusive cfg2 initialPoolState).2.2 = none ∧
    (delete [srcOne] (formatProxyConnection itemA) initialPoolState).2.1 = .ok () ∧
    (delete [srcOne] (formatProxyConnection itemA) initialPoolState).1 =
      removeFromPool (formatProxyConnection itemA).id initialPoolState ∧
    (delete [srcOne] (formatProxyConnection itemA) initialPoolState).2.2 =
      sockerRemove [srcOne] (formatProxyConnection itemA).id :=
  C6_amended cfg2 [srcOne] initialPoolState (formatProxyConnection itemA) rfl

/-- Claim C7: on an initialized pool, acquire mutates nothing: the state
and the stats are unchanged, a repeated call computes the same result, and
the returned connection is the projection of the first unused item. -/
theorem C7_acquire_pure (cfg : ProxyConfig) (s : PoolState)
    (h : s.initialized = true) :
    (get s).1 = s ∧
    get ((get s).1) = get s ∧
    getStats cfg ((get s).1) = getStats cfg s ∧
    (∀ p, getFromPool s = some p → (get s).2 = .ok (formatProxyConnection p)) ∧
    getFromPool s = (s.proxies.filter (fun q => !q.used)).head? := by
  refine ⟨get_fst s, by rw [get_fst], by rw [get_fst], ?_, rfl⟩
  intro p hp
  simp [get, h, hp]

/-- Claim C7 witness: acquire purity on the concrete one-item pool. -/
theorem C7_witness :
    (get sInit1).1 = sInit1 ∧
    get ((get sInit1).1) = get sInit1 ∧
    getStats cfg2 ((get sInit1).1) = getStats cfg2 sInit1 ∧
    (∀ p, getFromPool sInit1 = some p →
      (get sInit1).2 = .ok (formatProxyConnection p)) ∧
    getFromPool sInit1 = (sInit1.proxies.filter (fun q => !q.used)).head? :=
  C7_acquire_pure cfg2 sInit1 rfl

/-- Claim C8: discarding a connection whose id is not in the pool is a
local no-op: the pool is unchanged, the call resolves without error, and
the source-side release is still dispatched with the connection id to
every source supporting removal. -/
theorem C8_discard_unknown_id (sources : List Source) (c : ProxyConnection)
    (s : PoolState) (h : ∀ p ∈ s.proxies, p.id ≠ c.id) :
    (delete sources c s).1.proxies = s.proxies ∧
    (s.size = s.proxies.length → (delete sources c s).1 = s) ∧
    (delete sources c s).2.1 = .ok () ∧
    (delete sources c s).2.2 = sockerRemove sources c.id ∧
    (∀ src ∈ sources, src.hasRemove = true →
      (src.tag, c.id) ∈ (delete sources c s).2.2) := by
  have hfilter : s.proxies.filter (fun p => p.id ≠ c.id) = s.proxies := by
    rw [List.filter_eq_self]
    intro a ha
    exact decide_eq_true (h a ha)
  refine ⟨?_, ?_, rfl, rfl, ?_⟩
  · show (removeFromPool c.id s).proxies = s.proxies
    simp only [removeFromPool]
    exact hfilter
  · intro hsz
    show removeFromPool c.id s = s
    simp only [removeFromPool, hfilter]
    rw [← hsz]
  · intro src hsrc hrem
    show (src.tag, c.id) ∈ sockerRemove sources c.id
    simp only [sockerRemove, List.mem_map]
    exact ⟨src, List.mem_filter.mpr ⟨hsrc, hrem⟩, rfl⟩

/-- Claim C8 witness: discarding the unknown id of itemC from the
one-item pool next to a removal-capable source. -/
theorem C8_witness :
    (delete [srcOne] (formatProxyConnection itemC) sInit1).1.proxies =
      sInit1.proxies ∧
    (sInit1.size = sInit1.proxies.length →
      (delete [srcOne] (formatProxyConnection itemC) sInit1).1 = sInit1) ∧
    (delete [srcOne] (formatProxyConnection itemC) sInit1).2.1 = .ok () ∧
    (delete [srcOne] (formatProxyConnection itemC) sInit1).2.2 =
      sockerRemove [srcOne] (formatProxyConnection itemC).id ∧
    (∀ src ∈ [srcOne], src.hasRemove = true →
      (src.tag, (formatProxyConnection itemC).id) ∈
        (delete [srcOne] (formatProxyConnection itemC) sInit1).2.2) :=
  C8_discard_unknown_id [srcOne] (formatProxyConnection itemC) sInit1 (by decide)

/-- Claim C9 counterexample: ProxyMeshSource.get with count 0 returns one
item, exceeding the requested count. -/
theorem C9_counterexample : ¬ claimC9 := by
  intro h
  have h2 := h 0 pmActive 0 [proxyMeshItem 0 pmCfg] le_rfl rfl
  simp at h2

/-- Claim C9 amended: while its active flag is set, ProxyMeshSource.get
returns exactly one endpoint item regardless of the requested count (so
the at-most-count bound only holds for counts of at least one), and it
fails with the inactive error when the flag is cleared. -/
theorem C9_amended (now : Nat) (st : ProxyMeshState) (n : Int) :
    (st.isActive = true →
      proxyMeshGet now st n = .ok [proxyMeshItem now st.config] ∧
      (∀ ps, proxyMeshGet now st n = .ok ps →
        ps.length = 1 ∧ (1 ≤ n → (ps.length : Int) ≤ n))) ∧
    (st.isActive = false →
      proxyMeshGet now st n = .error ("ProxyMesh endpoint is inactive")) := by
  constructor
  · intro ha
    have hg : proxyMeshGet now st n = .ok [proxyMeshItem now st.config] := by
      simp [proxyMeshGet, ha]
    refine ⟨hg, ?_⟩
    intro ps hps
    rw [hg] at hps
    injection hps with h2
    rw [← h2]
    exact ⟨rfl, fun hn => by simpa using hn⟩
  · intro ha
    simp [proxyMeshGet, ha]

/-- Claim C9 witness: the amended statement at active and inactive
concrete endpoint states. -/
theorem C9_witness :
    proxyMeshGet 7 pmActive 5 = .ok [proxyMeshItem 7 pmCfg] ∧
    proxyMeshGet 7 pmInactive 5 = .error ("ProxyMesh endpoint is inactive") :=
  ⟨((C9_amended 7 pmActive 5).1 rfl).1, (C9_amended 7 pmInactive 5).2 rfl⟩

/-- Claim C10: when the orchestrator replenish underlying init fails on an
uninitialized pool, no pool field changes (proxies, size, lastRefresh and
the initialized flag keep their prior values) and init re-throws the
wrapped error, so a later init starts from the same state. -/
theorem C10_init_failure_atomic (s : PoolState) (now : Nat) (msg : String)
    (h : s.initialized = false) :
    (init now (.error msg) s).1 = s ∧
    (init now (.error msg) s).1.proxies = s.proxies ∧
    (init now (.error msg) s).1.size = s.size ∧
    (init now (.error msg) s).1.lastRefresh = s.lastRefresh ∧
    (init now (.error msg) s).1.initialized = false ∧
    (init now (.error msg) s).2 =
      .error ("[proxy] Proxy pool initialization failed: " ++ msg) := by
  have hfst : init now (.error msg) s =
      (s, .error ("[proxy] Proxy pool initialization failed: " ++ msg)) := by
    simp [init, h]
  exact ⟨by rw [hfst], by rw [hfst], by rw [hfst], by rw [hfst],
    by rw [hfst]; exact h, by rw [hfst]⟩

/-- Claim C10 witness: init failure atomicity on the creation state. -/
theorem C10_witness :
    (init 3 (.error ("boom")) initialPoolState).1 = initialPoolState ∧
    (init 3 (.error ("boom")) initialPoolState).1.proxies =
      initialPoolState.proxies ∧
    (init 3 (.error ("boom")) initialPoolState).1.size = initialPoolState.size ∧
    (init 3 (.error ("boom")) initialPoolState).1.lastRefresh =
      initialPoolState.lastRefresh ∧
    (init 3 (.error ("boom")) initialPoolState).1.initialized = false ∧
    (init 3 (.error ("boom")) initialPoolState).2 =
      .error ("[proxy] Proxy pool initialization failed: " ++ "boom") :=
  C10_init_failure_atomic initialPoolState 3 ("boom") rfl

end ProxySpec
